import Mathlib

/-!
Verification of the calendar-ticker repository.

This file shallowly embeds the parts of the repository that the verified
properties talk about:

* the React ticker client (`App` in the frontend source): its WebSocket
  `onmessage` handler, its reconnect-on-close behaviour, its ticker
  rendering (two concatenated copies of the event list) and the per-frame
  scroll animation;
* the design-token package: the static token tables, the
  `resolveCSSVariable` / `resolveTokenValues` helpers of `TokenShowcase`;
* the server-side event filter/transform (not present in the shipped
  sources; modelled from the specification).

Machine numbers in the embedded code are JavaScript numbers used only at
small integral or rational values, so they are modelled as `Nat` / `ℚ`.
-/

namespace CalendarTicker

/-! ## Client data model

The ticker client (frontend `App`) keeps three pieces of state that the
claims talk about: the event list, the display configuration and the
connected flag.  The configuration mirrors the `useState` initial value in
the source: a `display` record and a `no_events_message` string. -/

/-- Display preferences exactly as initialised in the client's `useState`
call; `show_calendar_indicator` is not part of the initial value (it is
`undefined` in JS) so it is carried as an `Option`. -/
structure DisplayConfig where
  scroll_speed : Nat
  pause_duration : Nat
  event_gap : Nat
  time_format : String
  position : String
  font_size : Nat
  show_clock : Bool
  show_calendar_indicator : Option Bool
deriving DecidableEq, Repr

/-- Top level of the client configuration state. -/
structure ClientConfig where
  display : DisplayConfig
  no_events_message : String
deriving DecidableEq, Repr

/-- An event as consumed by the client renderer (fields read by
`renderEvent`). -/
structure Event where
  id : String
  title : String
  time_str : String
  colour : String
  is_important : Bool
deriving DecidableEq, Repr

/-- The client state touched by the WebSocket handlers: `events`,
`config` and `connected`. -/
structure ClientState where
  events : List Event
  config : ClientConfig
  connected : Bool
deriving DecidableEq, Repr

/-- The configuration object carried by an incoming `"events"` message.
Each top-level key may be present or absent, which is what the JS spread
`\x7b...prev, ...message.config\x7d` is sensitive to. -/
structure IncomingConfig where
  display : Option DisplayConfig
  no_events_message : Option String
deriving DecidableEq, Repr

/-- A successfully parsed incoming WebSocket message:
`message.type`, `message.data` (absent when the JSON carried none) and
`message.config` (absent when the JSON carried none). -/
structure Msg where
  type : String
  data : Option (List Event)
  config : Option IncomingConfig
deriving DecidableEq, Repr

/-- What arrives at `ws.onmessage`: either a payload that failed
`JSON.parse` or a parsed message. -/
inductive Incoming where
  | parseFailure
  | parsed (m : Msg)
deriving DecidableEq, Repr

/-- Observable side effects of the `onmessage` handler.  The source
handler can only log a parse error; it never closes the socket, which is
why `closeConnection` is in the vocabulary but produced nowhere. -/
inductive ClientEffect where
  | logParseError
  | closeConnection
deriving DecidableEq, Repr

/-- The JS shallow spread `\x7b ...prev, ...incoming \x7d` restricted to the
top-level configuration keys: a key present in the incoming object
overrides the previous value, an absent key keeps it. -/
def spreadMerge (prev : ClientConfig) (inc : IncomingConfig) : ClientConfig :=
  { display := inc.display.getD prev.display
    no_events_message := inc.no_events_message.getD prev.no_events_message }

/-- The body of `ws.onmessage` in the client source: on a parse failure,
log and leave the state alone; on a parsed message of type `"events"`,
set `events` to `message.data || []` and, when `message.config` is
present, spread it over the previous config; any other message type is
ignored. -/
def handleMessage (s : ClientState) (i : Incoming) :
    ClientState × List ClientEffect :=
  match i with
  | Incoming.parseFailure => (s, [ClientEffect.logParseError])
  | Incoming.parsed m =>
    if m.type = "events" then
      ({ s with
          events := m.data.getD []
          config :=
            match m.config with
            | some c => spreadMerge s.config c
            | none => s.config }, [])
    else (s, [])

/-! ## Ticker rendering

`renderEvent` builds one `<div>` per event; the ticker body renders the
event list twice (`events.map(renderEvent)` followed by a second map with
shifted indices) or, when the list is empty, the configured no-events
message. -/

/-- JavaScript `x || d` on a number: `0` is falsy, so it falls back. -/
def jsOrNat (x d : Nat) : Nat := if x = 0 then d else x

/-- The rendered form of one event `<div>`, carrying everything
`renderEvent` computes from the event and the configuration. -/
structure RenderedEvent where
  key : String
  importantClass : Bool
  marginRight : Nat
  indicatorColour : Option String
  timeFontSize : ℚ
  timeStr : String
  title : String
  titleFontSize : ℚ
  importantBadge : Bool
deriving DecidableEq, Repr

/-- The client's `renderEvent(event, index)`:
key is `id-index`, font sizes derive from `font_size || 42` with the
important size scaled by `1.15` and the time size by `0.8`, the margin is
`event_gap || 100`, and the calendar indicator is shown unless
`show_calendar_indicator` is literally `false`. -/
def renderEvent (config : ClientConfig) (e : Event) (index : Nat) :
    RenderedEvent :=
  let fontSize : ℚ := (jsOrNat config.display.font_size 42 : ℚ)
  let importantSize : ℚ := fontSize * (115 / 100)
  { key := e.id ++ "-" ++ toString index
    importantClass := e.is_important
    marginRight := jsOrNat config.display.event_gap 100
    indicatorColour :=
      if config.display.show_calendar_indicator ≠ some false then
        some e.colour
      else none
    timeFontSize :=
      if e.is_important then importantSize * (8 / 10) else fontSize * (8 / 10)
    timeStr := e.time_str
    title := e.title
    titleFontSize := if e.is_important then importantSize else fontSize
    importantBadge := e.is_important }

/-- JavaScript `Array.prototype.map((x, i) => f i x)` with a running
index, kept explicit so the two shifted copies in the ticker body can be
written exactly as in the source. -/
def mapWithIndex {α β : Type} (f : Nat → α → β) : Nat → List α → List β
  | _, [] => []
  | i, a :: as => f i a :: mapWithIndex f (i + 1) as

/-- The ticker body: either a strip of rendered events or the no-events
message. -/
inductive TickerView where
  | strip (items : List RenderedEvent)
  | noEvents (msg : String)
deriving DecidableEq, Repr

/-- The ticker JSX in the client source: when `events.length > 0`, render
`events.map((event, i) => renderEvent(event, i))` followed by
`events.map((event, i) => renderEvent(event, i + events.length))`;
otherwise render `config.no_events_message`. -/
def renderTicker (s : ClientState) : TickerView :=
  if s.events.length > 0 then
    TickerView.strip
      (mapWithIndex (fun i e => renderEvent s.config e i) 0 s.events ++
       mapWithIndex (fun i e => renderEvent s.config e (i + s.events.length))
         0 s.events)
  else TickerView.noEvents s.config.no_events_message

/-! ## Design-token tables

The token tables of the design-system package are plain `as const`
records of string literals; they are embedded as parameterless constant
records, which makes their time-invariance definitional.  Field names
that start with a digit in TypeScript (`"2xl"`, ...) are spelled out. -/

/-- Nine brand colour primitives (`colorNine`). -/
structure ColorNineTable where
  nineBlue : String
  nineBlueDark : String
  nineBlack : String
  nineWhite : String
deriving DecidableEq, Repr

/-- Token table `colorNine` from the design-system source. -/
def colorNine : ColorNineTable :=
  { nineBlue := "#00beff"
    nineBlueDark := "#0518c5"
    nineBlack := "#000000"
    nineWhite := "#ffffff" }

/-- Gray-scale colour primitives (`colorGrays`). -/
structure ColorGraysTable where
  gray25 : String
  gray50 : String
  gray100 : String
  gray200 : String
  gray250 : String
  gray300 : String
  gray400 : String
  gray500 : String
  gray600 : String
  gray700 : String
  gray800 : String
  gray900 : String
deriving DecidableEq, Repr

/-- Token table `colorGrays` from the design-system source. -/
def colorGrays : ColorGraysTable :=
  { gray25 := "#fcfcfd", gray50 := "#f8fafc", gray100 := "#eeeeee"
    gray200 := "#e7ebef", gray250 := "#e5e5e5", gray300 := "#d1d5db"
    gray400 := "#9aa4b2", gray500 := "#787675", gray600 := "#4b5563"
    gray700 := "#374151", gray800 := "#232323", gray900 := "#111827" }

/-- Status/utility colour primitives (`colorUtility`). -/
structure ColorUtilityTable where
  green500 : String
  green600 : String
  red500 : String
  red600 : String
  yellow500 : String
  yellow600 : String
  orange500 : String
  orange600 : String
deriving DecidableEq, Repr

/-- Token table `colorUtility` from the design-system source. -/
def colorUtility : ColorUtilityTable :=
  { green500 := "#10b981", green600 := "#059669"
    red500 := "#ef4444", red600 := "#dc2626"
    yellow500 := "#f59e0b", yellow600 := "#d97706"
    orange500 := "#f97316", orange600 := "#ea580c" }

/-- Spacing primitives (`spacing`). -/
structure SpacingTable where
  space0 : String
  space1 : String
  space2 : String
  space3 : String
  space4 : String
  space5 : String
  space6 : String
  space8 : String
  space10 : String
  space12 : String
  space16 : String
deriving DecidableEq, Repr

/-- Token table `spacing` from the design-system source. -/
def spacing : SpacingTable :=
  { space0 := "0", space1 := "0.25rem", space2 := "0.5rem"
    space3 := "0.75rem", space4 := "1rem", space5 := "1.25rem"
    space6 := "1.5rem", space8 := "2rem", space10 := "2.5rem"
    space12 := "3rem", space16 := "4rem" }

/-- Border-radius primitives (`radius`); the TS key `"2xl"` is spelled
`twoXl`. -/
structure RadiusTable where
  none : String
  sm : String
  md : String
  lg : String
  xl : String
  twoXl : String
  full : String
deriving DecidableEq, Repr

/-- Token table `radius` from the design-system source. -/
def radius : RadiusTable :=
  { none := "0", sm := "0.25rem", md := "0.375rem", lg := "0.5rem"
    xl := "0.75rem", twoXl := "1rem", full := "9999px" }

/-- Typography size primitives (`typography`); digit-initial TS keys are
spelled out (`"2xl"` ↦ `twoXl`, ..., `"7xl"` ↦ `sevenXl`). -/
structure TypographyTable where
  xs : String
  sm : String
  base : String
  lg : String
  xl : String
  twoXl : String
  threeXl : String
  fourXl : String
  fiveXl : String
  sixXl : String
  sevenXl : String
deriving DecidableEq, Repr

/-- Token table `typography` from the design-system source. -/
def typography : TypographyTable :=
  { xs := "0.75rem", sm := "0.875rem", base := "1rem", lg := "1.125rem"
    xl := "1.25rem", twoXl := "1.5rem", threeXl := "1.875rem"
    fourXl := "2.25rem", fiveXl := "2.625rem", sixXl := "3rem"
    sevenXl := "4rem" }

/-- Font-weight primitives (`fontWeights`). -/
structure FontWeightsTable where
  light : String
  regular : String
  medium : String
  bold : String
  black : String
deriving DecidableEq, Repr

/-- Token table `fontWeights` from the design-system source. -/
def fontWeights : FontWeightsTable :=
  { light := "300", regular := "400", medium := "500"
    bold := "700", black := "900" }

/-- Line-height primitives (`lineHeights`). -/
structure LineHeightsTable where
  tight : String
  snug : String
  normal : String
  relaxed : String
deriving DecidableEq, Repr

/-- Token table `lineHeights` from the design-system source. -/
def lineHeights : LineHeightsTable :=
  { tight := "1.1", snug := "1.25", normal := "1.4", relaxed := "1.5" }

/-- Letter-spacing primitives (`letterSpacing`). -/
structure LetterSpacingTable where
  tighter : String
  tight : String
  normal : String
  wide : String
  wider : String
deriving DecidableEq, Repr

/-- Token table `letterSpacing` from the design-system source. -/
def letterSpacing : LetterSpacingTable :=
  { tighter := "-0.05em", tight := "-0.025em", normal := "0"
    wide := "0.025em", wider := "0.05em" }

/-- Shadow primitives (`shadows`). -/
structure ShadowsTable where
  sm : String
  md : String
  lg : String
  xl : String
deriving DecidableEq, Repr

/-- Token table `shadows` from the design-system source. -/
def shadows : ShadowsTable :=
  { sm := "0 1px 2px 0 rgba(0, 0, 0, 0.05)"
    md := "0 4px 6px -1px rgba(0, 0, 0, 0.1)"
    lg := "0 10px 15px -3px rgba(0, 0, 0, 0.1)"
    xl := "0 20px 25px -5px rgba(0, 0, 0, 0.1)" }

/-! ## Connection lifecycle state machine

The client's reconnect behaviour lives in three places of the source:
`connectWebSocket` (guarded socket creation), `ws.onclose` (schedule a
retry via `setTimeout(connectWebSocket, 5000)`) and the mount effect
(initial `connectWebSocket()` call).  The state machine below tracks
every socket ever created (in creation order, so the last entry is
`wsRef.current`) and the multiset of pending reconnect timers together
with their delays. -/

/-- Lifecycle of one WebSocket object: created (CONNECTING), OPEN, or
closed for good (its `onclose` has fired). -/
inductive SockStatus where
  | connecting
  | opened
  | closed
deriving DecidableEq, Repr

/-- State of the client connection machinery: all sockets ever created
(last = `wsRef.current`), the delays of the pending reconnect timers,
and the `connected` flag. -/
structure ConnState where
  socks : List SockStatus
  pending : List Nat
  connected : Bool
deriving DecidableEq, Repr

/-- The delay passed to `setTimeout` in `ws.onclose`. -/
def reconnectDelayMs : Nat := 5000

/-- The body of `connectWebSocket`: if `wsRef.current` exists and its
`readyState` is OPEN, return without doing anything; otherwise create a
new socket (CONNECTING) which becomes the new `wsRef.current`. -/
def connectWebSocket (s : ConnState) : ConnState :=
  match s.socks.getLast? with
  | some SockStatus.opened => s
  | _ => { s with socks := s.socks ++ [SockStatus.connecting] }

/-- The state right after the mount effect ran `connectWebSocket()` for
the first time: one CONNECTING socket, no pending timer, not connected. -/
def initConnState : ConnState :=
  connectWebSocket { socks := [], pending := [], connected := false }

/-- One environment step of the connection machinery:

* `sockOpen`: a CONNECTING socket's `onopen` fires (`connected := true`);
* `sockClose`: a live socket's `onclose` fires once (`connected := false`
  and a reconnect timer with delay `reconnectDelayMs` is scheduled);
* `timerFire`: one pending timer fires and runs `connectWebSocket`. -/
inductive ConnStep : ConnState → ConnState → Prop
  | sockOpen (s : ConnState) (i : Nat)
      (h : s.socks.get? i = some SockStatus.connecting) :
      ConnStep s
        { s with socks := s.socks.set i SockStatus.opened, connected := true }
  | sockClose (s : ConnState) (i : Nat)
      (h : s.socks.get? i = some SockStatus.connecting ∨
           s.socks.get? i = some SockStatus.opened) :
      ConnStep s
        { s with
            socks := s.socks.set i SockStatus.closed
            pending := s.pending ++ [reconnectDelayMs]
            connected := false }
  | timerFire (s : ConnState) (d : Nat) (rest : List Nat)
      (h : s.pending = d :: rest) :
      ConnStep s (connectWebSocket { s with pending := rest })

/-- States reachable from the freshly mounted client. -/
inductive ConnReachable : ConnState → Prop
  | init : ConnReachable initConnState
  | step {s t : ConnState} :
      ConnReachable s → ConnStep s t → ConnReachable t

/-- Whether a socket's `onclose` has already fired. -/
def isClosedSock : SockStatus → Bool
  | SockStatus.closed => true
  | _ => false

/-- Number of sockets whose `onclose` may still fire (CONNECTING or
OPEN). -/
def liveCount (s : ConnState) : Nat :=
  (s.socks.filter (fun st => !(isClosedSock st))).length

/-- Number of sockets whose `onclose` has already fired, i.e. the number
of disconnects seen so far. -/
def closedCount (s : ConnState) : Nat :=
  (s.socks.filter isClosedSock).length

/-! ## Frame animation

The `animate` callback in the ticker effect:
`position -= speed / 60; if (position <= -contentWidth) position = 0;`.
`contentWidth` is `content.scrollWidth / 2`, the width of one copy of the
duplicated event strip. -/

/-- One animation frame applied to the current offset, for scroll speed
`speed` (px/s at 60 fps) and one-copy width `contentWidth`. -/
def frameStep (speed contentWidth position : ℚ) : ℚ :=
  let p := position - speed / 60
  if p ≤ -contentWidth then 0 else p

/-- Offset after `n` animation frames starting from 0 (the effect resets
`position` to 0 every time it re-runs). -/
def framePos (speed contentWidth : ℚ) : Nat → ℚ
  | 0 => 0
  | n + 1 => frameStep speed contentWidth (framePos speed contentWidth n)

/-! ## Event filter/transform (modelled from the spec)

The server-side filter/transform step is not part of the shipped
sources (only its configuration schema and documentation are), so it is
modelled from the specification, section 4.1. -/

/-- Decides whether `needle` is a prefix of `hay` (character lists). -/
def listStartsWith : List Char → List Char → Bool
  | [], _ => true
  | _ :: _, [] => false
  | n :: ns, h :: hs => n == h && listStartsWith ns hs

/-- Decides whether `needle` occurs as a contiguous substring of `hay`
(character lists). -/
def listContainsSub (needle : List Char) : List Char → Bool
  | [] => listStartsWith needle []
  | h :: hs => listStartsWith needle (h :: hs) || listContainsSub needle hs

/-- JavaScript `String.prototype.toLowerCase` (ASCII range), written as
a structural map over the character list. -/
def strToLower (s : String) : String :=
  String.mk (s.data.map Char.toLower)

/-- JavaScript `String.prototype.trim`: strip whitespace from both ends,
written structurally over the character list. -/
def strTrim (s : String) : String :=
  String.mk
    (((s.data.dropWhile Char.isWhitespace).reverse.dropWhile
        Char.isWhitespace).reverse)

/-- Case-insensitive substring test on strings. -/
def containsCI (hay needle : String) : Bool :=
  listContainsSub (strToLower needle).data (strToLower hay).data

/-- Modelled from the spec: a raw provider event record as consumed by
the filter/transform step — title, start instant (minutes), all-day
flag, source calendar.  The provider adapter that produces these is out
of scope. -/
structure RawEvent where
  id : String
  title : String
  start : Int
  is_all_day : Bool
  calendar : String
deriving DecidableEq, Repr

/-- Modelled from the spec: the filter section of the configuration
(`hours_ahead`, `important_keywords`, `exclude_keywords`,
`include_all_day`) together with the calendar→colour mapping and its
default colour. -/
structure FilterConfig where
  hours_ahead : Nat
  important_keywords : List String
  exclude_keywords : List String
  include_all_day : Bool
  calendar_colours : List (String × String)
  default_colour : String
deriving DecidableEq, Repr

/-- Modelled from the spec: an Event produced by the filter/transform —
identifier, title, start instant, derived colour, derived important
flag, all-day flag. -/
structure ServerEvent where
  id : String
  title : String
  start : Int
  colour : String
  is_important : Bool
  is_all_day : Bool
deriving DecidableEq, Repr

/-- Title matches some keyword of the list as a case-insensitive
substring. -/
def matchesAny (title : String) (keywords : List String) : Bool :=
  keywords.any (fun k => containsCI title k)

/-- Modelled from the spec: colour assignment by looking up the source
calendar in the calendar→colour mapping, falling back to the default. -/
def lookupColour (colours : List (String × String)) (defaultColour : String)
    (calendar : String) : String :=
  match colours.find? (fun p => p.1 == calendar) with
  | some p => p.2
  | none => defaultColour

/-- Stable insertion (by ascending start time) used by the sort below:
an element moves before exactly those elements with strictly larger
start, so ties preserve the existing order. -/
def insertByStart (e : ServerEvent) : List ServerEvent → List ServerEvent
  | [] => [e]
  | x :: xs =>
    if x.start < e.start then x :: insertByStart e xs else e :: x :: xs

/-- Stable sort by ascending start time. -/
def sortByStart : List ServerEvent → List ServerEvent
  | [] => []
  | x :: xs => insertByStart x (sortByStart xs)

/-- Modelled from the spec (section 4.1): the event filter/transform.
Drops events whose title matches any exclude keyword (case-insensitive
substring), drops all-day events unless `include_all_day`, drops events
starting after `now` plus the lookahead window (`hours_ahead`, in
minutes here), marks events important when the title matches an
important keyword, assigns the calendar colour, and orders by start
time ascending with a stable sort. -/
def filterTransform (cfg : FilterConfig) (now : Int) (raws : List RawEvent) :
    List ServerEvent :=
  let kept := raws.filter (fun r =>
    !(matchesAny r.title cfg.exclude_keywords) &&
    (cfg.include_all_day || !r.is_all_day) &&
    (r.start ≤ now + (cfg.hours_ahead : Int) * 60))
  let evs := kept.map (fun r =>
    { id := r.id
      title := r.title
      start := r.start
      colour := lookupColour cfg.calendar_colours cfg.default_colour r.calendar
      is_important := matchesAny r.title cfg.important_keywords
      is_all_day := r.is_all_day : ServerEvent })
  sortByStart evs

/-! ## CSS variable resolution (`TokenShowcase`)

`resolveCSSVariable` reads computed styles from the document root; the
root styles are embedded as an association list `CSSEnv`, with
`getPropertyValue` returning `""` for unknown properties exactly like
the DOM API. -/

/-- Bindings of CSS custom properties on the document root. -/
abbrev CSSEnv : Type := List (String × String)

/-- DOM `getComputedStyle(document.documentElement).getPropertyValue`:
the bound value, or `""` when the property is not set. -/
def getPropertyValue (env : CSSEnv) (k : String) : String :=
  match env.find? (fun p => p.1 == k) with
  | some p => p.2
  | none => ""

/-- Character class `[\w-]` of the regex in `resolveCSSVariable`. -/
def isWordDashChar (c : Char) : Bool :=
  c.isAlpha || c.isDigit || c == '_' || c == '-'

/-- Attempts the regex `var\((--[\w-]+)\)` at the head of the character
list, returning the captured group. -/
def matchVarAt : List Char → Option (List Char)
  | 'v' :: 'a' :: 'r' :: '(' :: rest =>
    match rest.span isWordDashChar with
    | (run, rest2) =>
      match run, rest2 with
      | '-' :: '-' :: c :: cs, ')' :: _ => some ('-' :: '-' :: c :: cs)
      | _, _ => none
  | _ => none

/-- The JS `varValue.match(/var\((--[\w-]+)\)/)` capture: first position
at which the pattern matches, scanning left to right. -/
def findVarRef : List Char → Option String
  | [] => none
  | c :: cs =>
    match matchVarAt (c :: cs) with
    | some run => some (String.mk run)
    | none => findVarRef cs

/-- Number of CSS property names of the environment not yet in the
visited set; the termination measure of `resolveCSSVariable`. -/
def envKeysLeft (env : CSSEnv) (visited : List String) : Nat :=
  ((env.map Prod.fst).filter (fun k => !(visited.contains k))).length

/-- The `resolveCSSVariable` helper of `TokenShowcase`, with the DOM
root styles passed as `env` and the visited set as a list: an empty
value or one without a `var(--name)` reference is returned as is; an
already-visited reference returns the value unresolved; otherwise the
referenced property is read (trimmed, `""` when unset) and resolution
recurses on it when it is non-empty and different from the current
value. -/
def resolveCSSVariable (env : CSSEnv) (varValue : String)
    (visited : List String) : String :=
  if varValue = "" then varValue
  else
    match hm : findVarRef varValue.data with
    | none => varValue
    | some referencedVar =>
      if hv : visited.contains referencedVar then varValue
      else
        let rawValue := strTrim (getPropertyValue env referencedVar)
        if hr : rawValue ≠ "" ∧ rawValue ≠ varValue then
          resolveCSSVariable env rawValue (referencedVar :: visited)
        else varValue
termination_by envKeysLeft env visited
decreasing_by
  simp only [envKeysLeft]
  have hnv : referencedVar ∉ visited := by simpa using hv
  have hmemkeys : referencedVar ∈ env.map Prod.fst := by
    have hne : getPropertyValue env referencedVar ≠ "" := by
      intro hempty
      exact hr.1 (by
        show strTrim (getPropertyValue env referencedVar) = ""
        rw [hempty]; decide)
    unfold getPropertyValue at hne
    cases hf : env.find? (fun q => q.1 == referencedVar) with
    | none => rw [hf] at hne; exact absurd rfl hne
    | some q =>
      have hq : q ∈ env := List.mem_of_find?_eq_some hf
      have hqk : q.1 = referencedVar := by simpa using List.find?_some hf
      exact hqk ▸ List.mem_map_of_mem Prod.fst hq
  have key : ∀ l : List String, referencedVar ∈ l →
      (l.filter (fun k => !((referencedVar :: visited).contains k))).length <
      (l.filter (fun k => !(visited.contains k))).length := by
    intro l
    induction l with
    | nil => intro h; exact absurd h (List.not_mem_nil _)
    | cons a l ih =>
      intro hmem
      have himp : ∀ k : String,
          (!((referencedVar :: visited).contains k)) →
          (!(visited.contains k)) := by
        intro k hk
        simp only [List.contains_cons, Bool.not_eq_true', Bool.or_eq_false_iff,
          beq_eq_false_iff_ne] at hk
        simpa using hk.2
      have hle :
          (l.filter (fun k => !((referencedVar :: visited).contains k))).length ≤
          (l.filter (fun k => !(visited.contains k))).length :=
        (List.monotone_filter_right l himp).length_le
      by_cases hax : a = referencedVar
      · subst hax
        rw [List.filter_cons_of_neg (by simp [List.contains_cons]),
          List.filter_cons_of_pos (by simp [hnv])]
        exact Nat.lt_succ_of_le hle
      · have hmem2 : referencedVar ∈ l := by
          rcases List.mem_cons.mp hmem with h | h
          · exact absurd h.symm hax
          · exact h
        have hlt := ih hmem2
        by_cases hvv : a ∈ visited
        · rw [List.filter_cons_of_neg (by simp [List.contains_cons, hvv]),
            List.filter_cons_of_neg (by simp [hvv])]
          exact hlt
        · rw [List.filter_cons_of_pos (by simp [List.contains_cons, hax, hvv]),
            List.filter_cons_of_pos (by simp [hvv])]
          exact Nat.succ_lt_succ hlt
  exact key (env.map Prod.fst) hmemkeys

/-- Fuel-indexed variant of `resolveCSSVariable`, used to state the
recursion-depth bound: it returns `none` when the fuel is exhausted and
is structurally recursive. -/
def resolveCSSVariableFuel (env : CSSEnv) :
    Nat → String → List String → Option String
  | 0, _, _ => none
  | fuel + 1, varValue, visited =>
    if varValue = "" then some varValue
    else
      match findVarRef varValue.data with
      | none => some varValue
      | some referencedVar =>
        if visited.contains referencedVar then some varValue
        else
          let rawValue := strTrim (getPropertyValue env referencedVar)
          if rawValue ≠ "" ∧ rawValue ≠ varValue then
            resolveCSSVariableFuel env fuel rawValue (referencedVar :: visited)
          else some varValue

/-! ## Token value resolution (`resolveTokenValues`) -/

/-- A design-token definition as exported by the token source
(`category` is the string `"primitive"` or `"semantic"`). -/
structure TokenDefinition where
  name : String
  cssVar : String
  value : String
  category : String
  usage : String
deriving DecidableEq, Repr

/-- A titled group of tokens; `resolveTokenValues` maps groups of
`TokenDefinition` to groups of resolved tokens of the same shape (only
`value` is recomputed), so one type serves for both. -/
structure TokenGroup where
  title : String
  tokens : List TokenDefinition
deriving DecidableEq, Repr

/-- The per-token body of `resolveTokenValues`: read the token's CSS
variable from the root styles (trimmed), resolve nested `var(...)`
references, and fall back to the hardcoded token value when the result
is empty. -/
def resolveToken (env : CSSEnv) (token : TokenDefinition) : TokenDefinition :=
  let cssValue := strTrim (getPropertyValue env token.cssVar)
  let cssValue := resolveCSSVariable env cssValue []
  let value := if cssValue.length > 0 then cssValue else token.value
  { token with value := value }

/-- The `resolveTokenValues` helper of `TokenShowcase`. -/
def resolveTokenValues (env : CSSEnv) (groups : List TokenGroup) :
    List TokenGroup :=
  groups.map (fun group =>
    { title := group.title
      tokens := group.tokens.map (resolveToken env) })

/-! ## Concrete example inputs used by counterexamples and witnesses -/

/-- The display configuration exactly as initialised by the client's
`useState` call. -/
def initialDisplay : DisplayConfig :=
  { scroll_speed := 60, pause_duration := 0, event_gap := 100
    time_format := "12h", position := "bottom", font_size := 42
    show_clock := true, show_calendar_indicator := none }

/-- A sample client event. -/
def sampleEvent : Event :=
  { id := "1", title := "Standup", time_str := "9:00am"
    colour := "#00beff", is_important := false }

/-- A client state whose configured no-events message is `"OLD"`. -/
def exStateOld : ClientState :=
  { events := []
    config := { display := initialDisplay, no_events_message := "OLD" }
    connected := true }

/-- Like `exStateOld` but with no-events message `"OTHER"`. -/
def exStateOther : ClientState :=
  { events := []
    config := { display := initialDisplay, no_events_message := "OTHER" }
    connected := true }

/-- A parsed `"events"` message whose config carries a `display` key but
no `no_events_message` key. -/
def exMsgPartial : Msg :=
  { type := "events"
    data := some [sampleEvent]
    config := some
      { display := some { initialDisplay with font_size := 50 }
        no_events_message := none } }

/-- A client state with one event, for exercising the ticker render. -/
def exStateTicker : ClientState :=
  { events := [sampleEvent]
    config :=
      { display := initialDisplay
        no_events_message := "No upcoming events today" }
    connected := true }

/-- The connection state after `n` complete disconnect/reconnect cycles:
`n` dead sockets, one fresh CONNECTING socket, no pending timer. -/
def cycleState (n : Nat) : ConnState :=
  { socks := List.replicate n SockStatus.closed ++ [SockStatus.connecting]
    pending := []
    connected := false }

/-- The connection state right after the first socket closed: one dead
socket and one pending reconnect timer. -/
def closedOnceState : ConnState :=
  { socks := [SockStatus.closed]
    pending := [reconnectDelayMs]
    connected := false }

/-- A circular pair of CSS variables, as in the repository's own
circular-reference test. -/
def cycleEnv : CSSEnv :=
  [("--color-a", "var(--color-b)"), ("--color-b", "var(--color-a)")]

/-- A filter configuration with one exclude keyword. -/
def exFilterConfig : FilterConfig :=
  { hours_ahead := 24
    important_keywords := ["!"]
    exclude_keywords := ["lunch"]
    include_all_day := false
    calendar_colours := [("primary", "#4285f4")]
    default_colour := "#888888" }

/-- A raw event whose title contains the exclude keyword. -/
def exRawLunch : RawEvent :=
  { id := "a", title := "Team lunch", start := 60
    is_all_day := false, calendar := "primary" }

/-- A raw event that survives the filter. -/
def exRawMeeting : RawEvent :=
  { id := "b", title := "Board meeting!", start := 120
    is_all_day := false, calendar := "x" }

/-- The transformed output of `exRawMeeting`. -/
def exOutMeeting : ServerEvent :=
  { id := "b", title := "Board meeting!", start := 120
    colour := "#888888", is_important := true, is_all_day := false }

/-- A root-style environment with a present-but-empty custom property. -/
def exTokenEnv : CSSEnv := [("--color-custom", "")]

/-- The token groups of the repository's fallback test. -/
def exTokenGroups : List TokenGroup :=
  [{ title := "Fallback Test"
     tokens := [{ name := "Custom Color", cssVar := "--color-custom"
                  value := "#123456", category := "primitive"
                  usage := "Custom color" }] }]

/-! ## Helper lemmas -/

/-- `mapWithIndex` preserves length. -/
theorem length_mapWithIndex {α β : Type} (f : Nat → α → β) :
    ∀ (k : Nat) (l : List α), (mapWithIndex f k l).length = l.length := by
  intro k l
  induction l generalizing k with
  | nil => rfl
  | cons a l ih => simp [mapWithIndex, ih]

/-- Mapping an index-independent projection over `mapWithIndex` is a
plain map. -/
theorem map_mapWithIndex {α β γ : Type} (f : Nat → α → β) (g : β → γ)
    (h : α → γ) (hfg : ∀ i a, g (f i a) = h a) :
    ∀ (k : Nat) (l : List α), (mapWithIndex f k l).map g = l.map h := by
  intro k l
  induction l generalizing k with
  | nil => rfl
  | cons a l ih => simp [mapWithIndex, hfg, ih]

/-! ## Verified claims -/

/-- C8: every exported design-token table is a fixed constant record —
the embedded tables are parameterless constants (so evaluating them in
any state yields the same values), and sample entries of each table
(colour, spacing, radius, typography, font weight, line height, letter
spacing, shadow) evaluate to the literal values of the source, for
example `colorNine.nineBlue = "#00beff"` and
`spacing.space2 = "0.5rem"`. -/
theorem c8_token_tables_constant :
    colorNine.nineBlue = "#00beff" ∧
    colorGrays.gray100 = "#eeeeee" ∧
    colorUtility.green500 = "#10b981" ∧
    spacing.space2 = "0.5rem" ∧
    radius.md = "0.375rem" ∧
    typography.fiveXl = "2.625rem" ∧
    fontWeights.bold = "700" ∧
    lineHeights.normal = "1.4" ∧
    letterSpacing.wide = "0.025em" ∧
    shadows.sm = "0 1px 2px 0 rgba(0, 0, 0, 0.05)" :=
  ⟨rfl, rfl, rfl, rfl, rfl, rfl, rfl, rfl, rfl, rfl⟩

/-- C2: an incoming WebSocket message whose payload fails to parse is
logged and dropped — the events list, configuration and connected flag
are unchanged (the whole state is returned as is), the only effect is
the error log, and the handler never closes the connection. -/
theorem c2_parse_failure_dropped (s : ClientState) :
    handleMessage s Incoming.parseFailure =
      (s, [ClientEffect.logParseError]) ∧
    (handleMessage s Incoming.parseFailure).1 = s ∧
    ClientEffect.closeConnection ∉
      (handleMessage s Incoming.parseFailure).2 := by
  refine ⟨rfl, rfl, ?_⟩
  simp [handleMessage]

/-- C1 counterexample: a parsed `"events"` message whose config lacks
the `no_events_message` key leaves the previous value in the rendered
configuration, so the configuration is not replaced as a whole by the
message's contents — the post-state depends on the previous state even
for a fixed message. -/
theorem c1_counterexample :
    exMsgPartial.type = "events" ∧
    exMsgPartial.config.isSome = true ∧
    (handleMessage exStateOld
        (Incoming.parsed exMsgPartial)).1.config.no_events_message =
      "OLD" ∧
    (handleMessage exStateOld (Incoming.parsed exMsgPartial)).1.config ≠
      (handleMessage exStateOther (Incoming.parsed exMsgPartial)).1.config := by
  refine ⟨rfl, rfl, by decide, by decide⟩

/-- C1 (amended): for every parsed `"events"` message, the rendered
events list is replaced as a whole by the message's data list (empty
when the message carries no data), the connected flag is untouched, and
the configuration becomes the previous configuration shallow-merged
with the message's config when one is present (absent top-level keys
keep their previous values); in particular, when the message's config
carries every top-level key the configuration is replaced as a whole. -/
theorem c1_events_replaced_config_merged (s : ClientState) (m : Msg)
    (h : m.type = "events") :
    (handleMessage s (Incoming.parsed m)).1.events = m.data.getD [] ∧
    (handleMessage s (Incoming.parsed m)).1.config =
      (match m.config with
        | some c => spreadMerge s.config c
        | none => s.config) ∧
    (handleMessage s (Incoming.parsed m)).1.connected = s.connected ∧
    (∀ d msgText,
        m.config = some { display := some d
                          no_events_message := some msgText } →
        (handleMessage s (Incoming.parsed m)).1.config =
          { display := d, no_events_message := msgText }) := by
  simp only [handleMessage]
  rw [if_pos h]
  refine ⟨rfl, rfl, rfl, ?_⟩
  intro d msgText hc
  rw [hc]
  simp [spreadMerge]

/-- Witness for C1 (amended) at a concrete state and message. -/
theorem c1_events_replaced_config_merged_witness :
    (handleMessage exStateOld (Incoming.parsed exMsgPartial)).1.events =
      exMsgPartial.data.getD [] :=
  (c1_events_replaced_config_merged exStateOld exMsgPartial rfl).1

/-- C7: with a non-empty events list the ticker renders exactly two
concatenated copies of the list (the rendered strip has twice the
length, and projecting titles, time strings and importance flags gives
the event list followed immediately by itself, in order); with an empty
list it renders the configured no-events message. -/
theorem c7_two_copies (s : ClientState) :
    (s.events ≠ [] → ∃ items,
        renderTicker s = TickerView.strip items ∧
        items.length = 2 * s.events.length ∧
        items.map RenderedEvent.title =
          (s.events ++ s.events).map Event.title ∧
        items.map RenderedEvent.timeStr =
          (s.events ++ s.events).map Event.time_str ∧
        items.map RenderedEvent.importantClass =
          (s.events ++ s.events).map Event.is_important) ∧
    (s.events = [] →
        renderTicker s = TickerView.noEvents s.config.no_events_message) := by
  constructor
  · intro hne
    have hpos : 0 < s.events.length := List.length_pos.mpr hne
    refine ⟨mapWithIndex (fun i e => renderEvent s.config e i) 0 s.events ++
        mapWithIndex (fun i e => renderEvent s.config e (i + s.events.length))
          0 s.events, ?_, ?_, ?_, ?_, ?_⟩
    · unfold renderTicker
      rw [if_pos hpos]
    · rw [List.length_append, length_mapWithIndex, length_mapWithIndex]
      omega
    · rw [List.map_append,
        map_mapWithIndex (fun i e => renderEvent s.config e i)
          RenderedEvent.title Event.title (fun i a => rfl),
        map_mapWithIndex (fun i e => renderEvent s.config e (i + s.events.length))
          RenderedEvent.title Event.title (fun i a => rfl),
        ← List.map_append]
    · rw [List.map_append,
        map_mapWithIndex (fun i e => renderEvent s.config e i)
          RenderedEvent.timeStr Event.time_str (fun i a => rfl),
        map_mapWithIndex (fun i e => renderEvent s.config e (i + s.events.length))
          RenderedEvent.timeStr Event.time_str (fun i a => rfl),
        ← List.map_append]
    · rw [List.map_append,
        map_mapWithIndex (fun i e => renderEvent s.config e i)
          RenderedEvent.importantClass Event.is_important (fun i a => rfl),
        map_mapWithIndex (fun i e => renderEvent s.config e (i + s.events.length))
          RenderedEvent.importantClass Event.is_important (fun i a => rfl),
        ← List.map_append]
  · intro hempty
    unfold renderTicker
    rw [if_neg (by simp [hempty])]

/-- Witness for C7 at a concrete one-event state. -/
theorem c7_two_copies_witness :
    ∃ items,
      renderTicker exStateTicker = TickerView.strip items ∧
      items.length = 2 * exStateTicker.events.length ∧
      items.map RenderedEvent.title =
        (exStateTicker.events ++ exStateTicker.events).map Event.title ∧
      items.map RenderedEvent.timeStr =
        (exStateTicker.events ++ exStateTicker.events).map Event.time_str ∧
      items.map RenderedEvent.importantClass =
        (exStateTicker.events ++ exStateTicker.events).map Event.is_important :=
  (c7_two_copies exStateTicker).1 (by decide)

/-- C4: every animation frame advances the offset by `speed/60` pixels
(the frontend assumes 60 fps), and the offset is reset to zero exactly
when the advanced offset has scrolled at least the width of one copy of
the event strip (`contentWidth = scrollWidth / 2`); consequently,
starting from zero, the offset stays in the interval
`(-contentWidth, 0]` at every frame. -/
theorem c4_frame_animation (speed contentWidth : ℚ)
    (hspeed : 0 < speed) (hW : 0 < contentWidth) :
    (∀ position : ℚ, -contentWidth < position → position ≤ 0 →
        ((frameStep speed contentWidth position = 0 ↔
            position - speed / 60 ≤ -contentWidth) ∧
         (-contentWidth < position - speed / 60 →
            frameStep speed contentWidth position =
              position - speed / 60))) ∧
    (∀ n : Nat, -contentWidth < framePos speed contentWidth n ∧
        framePos speed contentWidth n ≤ 0) := by
  have hdelta : 0 < speed / 60 := by positivity
  have hstep : ∀ position : ℚ, -contentWidth < position → position ≤ 0 →
      ((frameStep speed contentWidth position = 0 ↔
          position - speed / 60 ≤ -contentWidth) ∧
       (-contentWidth < position - speed / 60 →
          frameStep speed contentWidth position = position - speed / 60)) := by
    intro position hlo hhi
    unfold frameStep
    by_cases hc : position - speed / 60 ≤ -contentWidth
    · rw [if_pos hc]
      exact ⟨⟨fun _ => hc, fun _ => rfl⟩,
        fun hgt => absurd hgt (not_lt.mpr hc)⟩
    · rw [if_neg hc]
      refine ⟨⟨?_, fun hle => absurd hle hc⟩, fun _ => rfl⟩
      intro h0
      exfalso
      linarith
  refine ⟨hstep, ?_⟩
  intro n
  induction n with
  | zero =>
    constructor
    · show -contentWidth < 0
      linarith
    · exact le_refl 0
  | succ n ih =>
    obtain ⟨hlo, hhi⟩ := ih
    show -contentWidth < frameStep speed contentWidth
          (framePos speed contentWidth n) ∧
        frameStep speed contentWidth (framePos speed contentWidth n) ≤ 0
    unfold frameStep
    by_cases hc : framePos speed contentWidth n - speed / 60 ≤ -contentWidth
    · rw [if_pos hc]
      exact ⟨by linarith, le_refl 0⟩
    · rw [if_neg hc]
      constructor
      · linarith [not_le.mp hc]
      · linarith

/-- Witness for C4 at scroll speed 60 and one-copy width 100, after five
frames. -/
theorem c4_frame_animation_witness :
    -(100 : ℚ) < framePos 60 100 5 ∧ framePos 60 100 5 ≤ 0 :=
  (c4_frame_animation 60 100 (by decide) (by decide)).2 5

/-- Membership is invariant under the stable insertion by start time. -/
theorem mem_insertByStart (e a : ServerEvent) :
    ∀ l, a ∈ insertByStart e l ↔ a = e ∨ a ∈ l := by
  intro l
  induction l with
  | nil => simp [insertByStart]
  | cons x xs ih =>
    unfold insertByStart
    by_cases h : x.start < e.start
    · rw [if_pos h]
      simp only [List.mem_cons, ih]
      tauto
    · rw [if_neg h]
      simp only [List.mem_cons]

/-- Membership is invariant under the stable sort by start time. -/
theorem mem_sortByStart (a : ServerEvent) :
    ∀ l, a ∈ sortByStart l ↔ a ∈ l := by
  intro l
  induction l with
  | nil => simp [sortByStart]
  | cons x xs ih =>
    unfold sortByStart
    rw [mem_insertByStart]
    simp [ih]

/-- C6 (spec-modelled): no event of the filter/transform output has a
title containing any configured exclude keyword as a case-insensitive
substring, regardless of the other events in the input. -/
theorem c6_exclude_keywords (cfg : FilterConfig) (now : Int)
    (raws : List RawEvent) (e : ServerEvent)
    (he : e ∈ filterTransform cfg now raws)
    (K : String) (hK : K ∈ cfg.exclude_keywords) :
    containsCI e.title K = false := by
  unfold filterTransform at he
  rw [mem_sortByStart] at he
  simp only [List.mem_map] at he
  obtain ⟨r, hr, rfl⟩ := he
  rw [List.mem_filter] at hr
  have hpred := hr.2
  simp only [Bool.and_eq_true, Bool.not_eq_true'] at hpred
  have hma : matchesAny r.title cfg.exclude_keywords = false := hpred.1.1
  unfold matchesAny at hma
  have hall := List.any_eq_false.mp hma
  have hK2 := hall K hK
  show containsCI r.title K = false
  cases hcc : containsCI r.title K
  · rfl
  · exact absurd hcc hK2

/-- Witness for C6 on the spec's own scenario: the surviving event's
title does not contain the configured exclude keyword. -/
theorem c6_exclude_keywords_witness :
    exOutMeeting ∈ filterTransform exFilterConfig 0
      [exRawLunch, exRawMeeting] ∧
    "lunch" ∈ exFilterConfig.exclude_keywords ∧
    containsCI exOutMeeting.title "lunch" = false :=
  ⟨by decide, by decide,
    c6_exclude_keywords exFilterConfig 0 [exRawLunch, exRawMeeting]
      exOutMeeting (by decide) "lunch" (by decide)⟩

/-- Mapping a function over a list yields a pointwise-related list. -/
theorem forall₂_map_self {α β : Type} (r : β → α → Prop) (f : α → β) :
    ∀ l : List α, (∀ a ∈ l, r (f a) a) → List.Forall₂ r (l.map f) l := by
  intro l
  induction l with
  | nil => intro _; exact List.Forall₂.nil
  | cons a l ih =>
    intro h
    exact List.Forall₂.cons (h a (List.mem_cons_self a l))
      (ih fun b hb => h b (List.mem_cons_of_mem a hb))

/-- Resolving the empty value returns the empty value. -/
theorem resolveCSSVariable_empty (env : CSSEnv) (visited : List String) :
    resolveCSSVariable env "" visited = "" := by
  rw [resolveCSSVariable]
  simp

/-- C10: `resolveTokenValues` keeps the number of groups, every group
title, and every token's `name`, `cssVar`, `category` and `usage`
unchanged, in order; and a token whose CSS variable lookup yields the
empty string keeps its hardcoded fallback `value`. -/
theorem c10_resolve_token_values (env : CSSEnv) (groups : List TokenGroup) :
    (resolveTokenValues env groups).length = groups.length ∧
    List.Forall₂ (fun g2 g =>
        g2.title = g.title ∧
        g2.tokens.length = g.tokens.length ∧
        List.Forall₂ (fun t2 t =>
            t2.name = t.name ∧ t2.cssVar = t.cssVar ∧
            t2.category = t.category ∧ t2.usage = t.usage ∧
            (getPropertyValue env t.cssVar = "" → t2.value = t.value))
          g2.tokens g.tokens)
      (resolveTokenValues env groups) groups := by
  constructor
  · simp [resolveTokenValues]
  · unfold resolveTokenValues
    apply forall₂_map_self
    intro g _
    refine ⟨rfl, by simp, ?_⟩
    show List.Forall₂ _ (g.tokens.map (resolveToken env)) g.tokens
    apply forall₂_map_self
    intro t _
    refine ⟨rfl, rfl, rfl, rfl, ?_⟩
    intro hempty
    show (resolveToken env t).value = t.value
    have h1 : strTrim "" = "" := by decide
    simp only [resolveToken, hempty, h1, resolveCSSVariable_empty]
    simp

/-- Witness for C10 on the repository's fallback-test inputs. -/
theorem c10_resolve_token_values_witness :
    (resolveTokenValues exTokenEnv exTokenGroups).length =
      exTokenGroups.length :=
  (c10_resolve_token_values exTokenEnv exTokenGroups).1

/-- Strict decrease of the unvisited-key measure: looking up a present,
unvisited property name and adding it to the visited set leaves strictly
fewer unvisited names (standalone restatement of the termination
argument of `resolveCSSVariable`). -/
theorem envKeysLeft_cons_lt (env : CSSEnv) (visited : List String)
    (ref : String) (hmem : ref ∈ env.map Prod.fst) (hnv : ref ∉ visited) :
    envKeysLeft env (ref :: visited) < envKeysLeft env visited := by
  unfold envKeysLeft
  revert hmem
  generalize env.map Prod.fst = l
  intro hmem
  induction l with
  | nil => exact absurd hmem (List.not_mem_nil _)
  | cons a l ih =>
    have himp : ∀ k : String,
        (!((ref :: visited).contains k)) → (!(visited.contains k)) := by
      intro k hk
      simp only [List.contains_cons, Bool.not_eq_true', Bool.or_eq_false_iff,
        beq_eq_false_iff_ne] at hk
      simpa using hk.2
    have hle :
        (l.filter (fun k => !((ref :: visited).contains k))).length ≤
        (l.filter (fun k => !(visited.contains k))).length :=
      (List.monotone_filter_right l himp).length_le
    by_cases hax : a = ref
    · subst hax
      rw [List.filter_cons_of_neg (by simp [List.contains_cons]),
        List.filter_cons_of_pos (by simp [hnv])]
      exact Nat.lt_succ_of_le hle
    · have hmem2 : ref ∈ l := by
        rcases List.mem_cons.mp hmem with h | h
        · exact absurd h.symm hax
        · exact h
      have hlt := ih hmem2
      by_cases hvv : a ∈ visited
      · rw [List.filter_cons_of_neg (by simp [List.contains_cons, hvv]),
          List.filter_cons_of_neg (by simp [hvv])]
        exact hlt
      · rw [List.filter_cons_of_pos (by simp [List.contains_cons, hax, hvv]),
          List.filter_cons_of_pos (by simp [hvv])]
        exact Nat.succ_lt_succ hlt

/-- A property with a non-empty computed value is among the
environment's property names. -/
theorem getPropertyValue_mem_keys (env : CSSEnv) (k : String)
    (h : getPropertyValue env k ≠ "") : k ∈ env.map Prod.fst := by
  unfold getPropertyValue at h
  cases hf : env.find? (fun q => q.1 == k) with
  | none => rw [hf] at h; exact absurd rfl h
  | some q =>
    have hq : q ∈ env := List.mem_of_find?_eq_some hf
    have hqk : q.1 = k := by simpa using List.find?_some hf
    exact hqk ▸ List.mem_map_of_mem Prod.fst hq

/-- With fuel exceeding the number of unvisited property names, the
fuel-indexed resolver computes exactly `resolveCSSVariable`: the
recursion depth is bounded by the number of distinct variable names not
yet visited. -/
theorem resolveCSSVariableFuel_spec (env : CSSEnv) :
    ∀ (fuel : Nat) (varValue : String) (visited : List String),
      envKeysLeft env visited < fuel →
      resolveCSSVariableFuel env fuel varValue visited =
        some (resolveCSSVariable env varValue visited) := by
  intro fuel
  induction fuel with
  | zero => intro v vis h; exact absurd h (Nat.not_lt_zero _)
  | succ fuel ih =>
    intro varValue visited hfuel
    rw [resolveCSSVariable]
    simp only [resolveCSSVariableFuel]
    by_cases h1 : varValue = ""
    · simp [h1]
    · simp only [if_neg h1]
      cases hm2 : findVarRef varValue.data with
      | none => rfl
      | some ref =>
        show (if visited.contains ref = true then some varValue
            else
              if strTrim (getPropertyValue env ref) ≠ "" ∧
                  strTrim (getPropertyValue env ref) ≠ varValue then
                resolveCSSVariableFuel env fuel
                  (strTrim (getPropertyValue env ref)) (ref :: visited)
              else some varValue) =
          some (if visited.contains ref = true then varValue
            else
              if strTrim (getPropertyValue env ref) ≠ "" ∧
                  strTrim (getPropertyValue env ref) ≠ varValue then
                resolveCSSVariable env
                  (strTrim (getPropertyValue env ref)) (ref :: visited)
              else varValue)
        split_ifs with h2 h3
        · rfl
        · apply ih
          have hne : getPropertyValue env ref ≠ "" := by
            intro hempty
            exact h3.1 (by rw [hempty]; decide)
          have hdec := envKeysLeft_cons_lt env visited ref
            (getPropertyValue_mem_keys env ref hne) (by simpa using h2)
          omega
        · rfl

/-- C9: `resolveCSSVariable` terminates on every input string and every
environment, with recursion depth bounded by the number of distinct
unvisited variable names (the total function agrees with a fuel-indexed
structural variant given that much fuel), and on a circular chain of
`var(--x)` references it returns the unresolved input value — shown on
the repository's own two-variable cycle. -/
theorem c9_resolve_terminates :
    (∀ (env : CSSEnv) (varValue : String) (visited : List String),
        resolveCSSVariableFuel env (envKeysLeft env visited + 1) varValue
          visited = some (resolveCSSVariable env varValue visited)) ∧
    resolveCSSVariable cycleEnv "var(--color-a)" [] = "var(--color-a)" := by
  constructor
  · intro env v visited
    exact resolveCSSVariableFuel_spec env _ v visited (Nat.lt_succ_self _)
  · have h1 := resolveCSSVariableFuel_spec cycleEnv 3 "var(--color-a)" []
      (by decide)
    have h2 : resolveCSSVariableFuel cycleEnv 3 "var(--color-a)" [] =
        some "var(--color-a)" := by decide
    exact Option.some.inj (h1.symm.trans h2)

/-- Effect of `List.set` on a filtered length, when the element at the
position being overwritten is known. -/
theorem length_filter_set_get {α : Type} (p : α → Bool) :
    ∀ (l : List α) (i : Nat) (v w : α), l.get? i = some v →
      ((l.set i w).filter p).length + (if p v = true then 1 else 0) =
      (l.filter p).length + (if p w = true then 1 else 0) := by
  intro l
  induction l with
  | nil => intro i v w h; cases h
  | cons a l ih =>
    intro i v w h
    cases i with
    | zero =>
      obtain rfl : a = v := by simpa using h
      show ((w :: l).filter p).length + _ =
        ((a :: l).filter p).length + _
      by_cases hw : p w = true <;> by_cases ha : p a = true <;>
        simp [List.filter_cons, hw, ha] <;> omega
    | succ i =>
      have h2 : l.get? i = some v := by simpa using h
      have hrec := ih i v w h2
      show ((a :: l.set i w).filter p).length + _ =
        ((a :: l).filter p).length + _
      by_cases ha : p a = true <;>
        simp [List.filter_cons, ha] <;> omega

/-- `List.set` with an element classified the same way keeps the
filtered length. -/
theorem length_filter_set_same {α : Type} (p : α → Bool) (l : List α)
    (i : Nat) (v w : α) (h : l.get? i = some v) (hvw : p v = p w) :
    ((l.set i w).filter p).length = (l.filter p).length := by
  have heq := length_filter_set_get p l i v w h
  rw [hvw] at heq
  omega

/-- `List.set` replacing a `p`-element by a non-`p`-element drops the
filtered length by one. -/
theorem length_filter_set_drop {α : Type} (p : α → Bool) (l : List α)
    (i : Nat) (v w : α) (h : l.get? i = some v) (hv : p v = true)
    (hw : p w = false) :
    ((l.set i w).filter p).length + 1 = (l.filter p).length := by
  have heq := length_filter_set_get p l i v w h
  rw [hv, hw] at heq
  simp at heq
  omega

/-- `List.set` replacing a non-`p`-element by a `p`-element adds one to
the filtered length. -/
theorem length_filter_set_add {α : Type} (p : α → Bool) (l : List α)
    (i : Nat) (v w : α) (h : l.get? i = some v) (hv : p v = false)
    (hw : p w = true) :
    ((l.set i w).filter p).length = (l.filter p).length + 1 := by
  have heq := length_filter_set_get p l i v w h
  rw [hv, hw] at heq
  simp at heq
  omega

/-- `connectWebSocket` never touches the pending-timer list. -/
theorem connectWebSocket_pending (s : ConnState) :
    (connectWebSocket s).pending = s.pending := by
  unfold connectWebSocket
  split <;> rfl

/-- `connectWebSocket` closes nothing: the disconnect count is
unchanged. -/
theorem connectWebSocket_closedCount (s : ConnState) :
    closedCount (connectWebSocket s) = closedCount s := by
  unfold connectWebSocket closedCount
  split
  · rfl
  · simp [isClosedSock]

/-- When no live socket exists, `connectWebSocket` passes its guard and
creates a fresh CONNECTING socket. -/
theorem connectWebSocket_of_dead (s : ConnState) (h : liveCount s = 0) :
    connectWebSocket s =
      { s with socks := s.socks ++ [SockStatus.connecting] } := by
  unfold connectWebSocket
  cases hl : s.socks.getLast? with
  | none => rfl
  | some v =>
    cases v with
    | connecting => rfl
    | closed => rfl
    | opened =>
      exfalso
      have hv : SockStatus.opened ∈ s.socks := List.mem_of_getLast?_eq_some hl
      have hmem : SockStatus.opened ∈
          s.socks.filter (fun st => !(isClosedSock st)) :=
        List.mem_filter.mpr ⟨hv, by decide⟩
      have hpos := List.length_pos.mpr (List.ne_nil_of_mem hmem)
      unfold liveCount at h
      omega

/-- A replicate of dead sockets has no live socket. -/
theorem replicate_closed_live (n : Nat) :
    ((List.replicate n SockStatus.closed).filter
      (fun st => !(isClosedSock st))).length = 0 := by
  induction n with
  | zero => rfl
  | succ n ih =>
    rw [List.replicate_succ]
    simp [List.filter_cons, isClosedSock, ih]

/-- A replicate of dead sockets counts as that many disconnects. -/
theorem replicate_closed_filter (n : Nat) :
    ((List.replicate n SockStatus.closed).filter
      isClosedSock).length = n := by
  induction n with
  | zero => rfl
  | succ n ih =>
    rw [List.replicate_succ]
    simp [List.filter_cons, isClosedSock, ih]

/-- The fresh CONNECTING socket of a cycle state sits at index `n`. -/
theorem replicate_get (n : Nat) :
    (List.replicate n SockStatus.closed ++ [SockStatus.connecting]).get? n =
      some SockStatus.connecting := by
  rw [List.get?_append_right (by simp)]
  simp

/-- Closing the fresh socket of a cycle state yields `n + 1` dead
sockets. -/
theorem replicate_set (n : Nat) :
    (List.replicate n SockStatus.closed ++ [SockStatus.connecting]).set n
      SockStatus.closed = List.replicate (n + 1) SockStatus.closed := by
  induction n with
  | zero => rfl
  | succ n ih =>
    rw [List.replicate_succ, List.cons_append, List.set_cons_succ, ih,
      ← List.replicate_succ]

/-- `connectWebSocket` on an all-dead cycle state starts the next
attempt. -/
theorem connectWebSocket_cycle (n : Nat) :
    connectWebSocket
      { socks := List.replicate (n + 1) SockStatus.closed
        pending := [], connected := false } = cycleState (n + 1) := by
  have h := connectWebSocket_of_dead
    { socks := List.replicate (n + 1) SockStatus.closed
      pending := [], connected := false }
    (replicate_closed_live (n + 1))
  rw [h]
  rfl

/-- Every cycle state is reachable: the machinery reconnects after every
disconnect, indefinitely. -/
theorem cycleState_reachable (n : Nat) : ConnReachable (cycleState n) := by
  induction n with
  | zero => exact ConnReachable.init
  | succ n ih =>
    have h2 := ConnReachable.step ih
      (ConnStep.sockClose (cycleState n) n (Or.inl (replicate_get n)))
    have hmid : ConnReachable
        { socks := List.replicate (n + 1) SockStatus.closed
          pending := [reconnectDelayMs], connected := false } := by
      rw [← replicate_set n]
      exact h2
    rw [← connectWebSocket_cycle n]
    exact ConnReachable.step hmid
      (ConnStep.timerFire _ reconnectDelayMs [] rfl)

/-- A cycle state records exactly `n` disconnects. -/
theorem cycleState_closedCount (n : Nat) :
    closedCount (cycleState n) = n := by
  show ((List.replicate n SockStatus.closed ++
      [SockStatus.connecting]).filter
        isClosedSock).length = n
  rw [List.filter_append]
  simp [replicate_closed_filter, isClosedSock]

/-- Invariant of the connection machinery: in every reachable state,
live sockets and pending reconnect timers together number exactly one. -/
theorem conn_invariant : ∀ s, ConnReachable s →
    liveCount s + s.pending.length = 1 := by
  intro s hs
  induction hs with
  | init => decide
  | @step s t hreach hstep ih =>
    cases hstep with
    | sockOpen i h =>
      have heq := length_filter_set_same (fun st => !(isClosedSock st))
        s.socks i SockStatus.connecting SockStatus.opened h rfl
      unfold liveCount at ih
      show ((s.socks.set i SockStatus.opened).filter
          (fun st => !(isClosedSock st))).length + s.pending.length = 1
      omega
    | sockClose i h =>
      unfold liveCount at ih
      show ((s.socks.set i SockStatus.closed).filter
          (fun st => !(isClosedSock st))).length +
        (s.pending ++ [reconnectDelayMs]).length = 1
      rw [List.length_append]
      have hone : ([reconnectDelayMs] : List Nat).length = 1 := rfl
      rw [hone]
      rcases h with h | h
      · have heq := length_filter_set_drop (fun st => !(isClosedSock st))
          s.socks i SockStatus.connecting SockStatus.closed h rfl rfl
        omega
      · have heq := length_filter_set_drop (fun st => !(isClosedSock st))
          s.socks i SockStatus.opened SockStatus.closed h rfl rfl
        omega
    | timerFire d rest h =>
      rw [h, List.length_cons] at ih
      have hlive0 : liveCount s = 0 := by omega
      have hrest : rest.length = 0 := by omega
      have hdead : liveCount { s with pending := rest } = 0 := hlive0
      rw [connectWebSocket_of_dead _ hdead]
      show ((s.socks ++ [SockStatus.connecting]).filter
          (fun st => !(isClosedSock st))).length + rest.length = 1
      have hf : (([SockStatus.connecting] : List SockStatus).filter
          (fun st => !(isClosedSock st))) = [SockStatus.connecting] := rfl
      rw [List.filter_append, hf, List.length_append]
      unfold liveCount at hlive0
      simp only [List.length_cons, List.length_nil]
      omega

/-- Every pending reconnect timer in every reachable state was scheduled
with the fixed delay. -/
theorem conn_pending_delays : ∀ s, ConnReachable s →
    ∀ d ∈ s.pending, d = reconnectDelayMs := by
  intro s hs
  induction hs with
  | init => intro d hd; exact absurd hd (List.not_mem_nil d)
  | @step s t hreach hstep ih =>
    cases hstep with
    | sockOpen i h => exact ih
    | sockClose i h =>
      intro d hd
      rcases List.mem_append.mp hd with h1 | h1
      · exact ih d h1
      · simpa using h1
    | timerFire d rest h =>
      intro x hx
      rw [connectWebSocket_pending] at hx
      exact ih x (by rw [h]; exact List.mem_cons_of_mem d hx)

/-- C5: in every reachable state of the connection machinery — across
any sequence of connection opens, closes and timer fires — at most one
reconnect timer is pending, so no two reconnect attempts are ever
concurrently scheduled. -/
theorem c5_single_pending_timer (s : ConnState) (h : ConnReachable s) :
    s.pending.length ≤ 1 := by
  have hinv := conn_invariant s h
  omega

/-- Witness for C5 at the initial (just-mounted) state. -/
theorem c5_single_pending_timer_witness :
    initConnState.pending.length ≤ 1 :=
  c5_single_pending_timer initConnState ConnReachable.init

/-- C3: the reconnect delay is the fixed 5000 ms; every step that closes
a socket schedules exactly one reconnect timer with that delay; every
pending timer in every reachable state carries that same delay (no
backoff escalation); and for every `n` the state after `n` consecutive
disconnects is reachable with an `(n+1)`-th connection attempt made (no
maximum retry count). -/
theorem c3_fixed_delay_retry_forever :
    reconnectDelayMs = 5000 ∧
    (∀ s t, ConnStep s t → closedCount s < closedCount t →
        t.pending = s.pending ++ [reconnectDelayMs] ∧
        closedCount t = closedCount s + 1) ∧
    (∀ s, ConnReachable s → ∀ d ∈ s.pending, d = reconnectDelayMs) ∧
    (∀ n : Nat, ConnReachable (cycleState n) ∧
        closedCount (cycleState n) = n ∧
        (cycleState n).socks.length = n + 1) := by
  refine ⟨rfl, ?_, conn_pending_delays, ?_⟩
  · intro s t hstep hlt
    cases hstep with
    | sockOpen i h =>
      exfalso
      have heq := length_filter_set_same isClosedSock
        s.socks i SockStatus.connecting SockStatus.opened h rfl
      have hlt2 : (s.socks.filter isClosedSock).length <
          ((s.socks.set i SockStatus.opened).filter isClosedSock).length :=
        hlt
      omega
    | sockClose i h =>
      refine ⟨rfl, ?_⟩
      show ((s.socks.set i SockStatus.closed).filter
          isClosedSock).length =
        (s.socks.filter isClosedSock).length + 1
      rcases h with h | h
      · exact length_filter_set_add isClosedSock s.socks i
          SockStatus.connecting SockStatus.closed h rfl rfl
      · exact length_filter_set_add isClosedSock s.socks i
          SockStatus.opened SockStatus.closed h rfl rfl
    | timerFire d rest h =>
      exfalso
      have hcc := connectWebSocket_closedCount { s with pending := rest }
      have hcc2 : closedCount ({ s with pending := rest } : ConnState) =
          closedCount s := rfl
      omega
  · intro n
    refine ⟨cycleState_reachable n, cycleState_closedCount n, ?_⟩
    show (List.replicate n SockStatus.closed ++
        [SockStatus.connecting]).length = n + 1
    simp

/-- Witness for C3: the state after three disconnect/reconnect cycles is
reachable with a fourth connection attempt made and three disconnects
recorded, and the timer pending after the first disconnect carries the
fixed 5000 ms delay. -/
theorem c3_fixed_delay_retry_forever_witness :
    (ConnReachable (cycleState 3) ∧ closedCount (cycleState 3) = 3 ∧
      (cycleState 3).socks.length = 4) ∧
    (5000 : Nat) = reconnectDelayMs := by
  refine ⟨c3_fixed_delay_retry_forever.2.2.2 3, ?_⟩
  have hreach : ConnReachable closedOnceState :=
    ConnReachable.step ConnReachable.init
      (ConnStep.sockClose initConnState 0 (Or.inl (by decide)))
  exact c3_fixed_delay_retry_forever.2.2.1 closedOnceState hreach 5000
    (by decide)

end CalendarTicker
